import Mathlib

/-
  Verification of the yfinance-go session manager, retry engine and
  multi-ticker download orchestrator.

  The Go source is shallowly embedded: pure string manipulation is
  translated to functions on Lean strings (a `String` here is a wrapper
  around `List Char`), stateful session code becomes explicit state
  passing over a session-state structure, network calls become oracle
  parameters (functions supplied as arguments), and Go's
  `(value, error)` returns become `Except`/`Option` results.
-/

namespace YFinance

/-! ## String helpers modelling the Go standard library calls used by the source -/

/-- Test whether `t` starts the list `s` (first argument is the list, second
the candidate front segment). -/
def startsWithChars : List Char → List Char → Bool
  | _, [] => true
  | [], _ :: _ => false
  | a :: s, b :: t => a = b && startsWithChars s t

/-- Test whether `sub` occurs contiguously inside `s`. -/
def containsChars : List Char → List Char → Bool
  | [], sub => sub.isEmpty
  | a :: s, sub => startsWithChars (a :: s) sub || containsChars s sub

/-- Substring test, modelling Go strings.Contains(s, sub). -/
def containsSubstr (s sub : String) : Bool :=
  containsChars s.data sub.data

/-- Suffix test, modelling Go strings.HasSuffix(s, suffix). -/
def hasSuffixGo (s suffix : String) : Bool :=
  startsWithChars s.data.reverse suffix.data.reverse

/-- Whitespace predicate modelling unicode.IsSpace on the Latin-1 range
(the range relevant to ticker strings). -/
def isGoSpace (c : Char) : Bool :=
  c = ' ' || c = '\t' || c = '\n' || c = '\x0b' || c = '\x0c' || c = '\r' ||
  c = '\u0085' || c = ' '

/-- Modelling Go strings.TrimSpace: drop whitespace from both ends. -/
def trimSpace (s : String) : String :=
  ⟨((s.data.dropWhile isGoSpace).reverse.dropWhile isGoSpace).reverse⟩

/-- Modelling Go strings.ToUpper via the per-character uppercase map. -/
def toUpperGo (s : String) : String :=
  ⟨s.data.map Char.toUpper⟩

/-- Comma splitter on character lists; `acc` is the current field, reversed. -/
def splitCommaChars : List Char → List Char → List (List Char)
  | [], acc => [acc.reverse]
  | c :: rest, acc =>
    if c = ',' then acc.reverse :: splitCommaChars rest []
    else splitCommaChars rest (c :: acc)

/-- Modelling Go strings.Split(s, ","): every comma separates a field and
the empty string yields one empty field. -/
def splitComma (s : String) : List String :=
  (splitCommaChars s.data []).map (fun l => String.mk l)

/-! ## Credential validity (isValidCrumb, session manager source lines 245-257) -/

def htmlMarker : String := "<html>"

def doctypeMarker : String := "<!DOCTYPE"

def tooManyMarker : String := "Too Many Requests"

def yahooMarker : String := "Yahoo"

/-- Credential validity check, translated from isValidCrumb: an empty crumb
or one containing an HTML/error-page marker is rejected. -/
def isValidCrumb (crumb : String) : Bool :=
  if crumb = "" then false
  else if containsSubstr crumb htmlMarker || containsSubstr crumb doctypeMarker
      || containsSubstr crumb tooManyMarker || containsSubstr crumb yahooMarker then
    false
  else true

/-! ## Credential store (CookieCache, loadCookieCache, saveCookieCache) -/

def strategyBasic : String := "basic"

def strategyCsrf : String := "csrf"

/-- On-disk cookie cache record, translated from the CookieCache struct.
Times are in seconds. -/
structure CookieCacheM where
  cookie : String
  crumb : String
  expiry : Nat
  strategy : String
  deriving DecidableEq, Repr

/-- The credential-relevant fields of YfData, with the cache file contents
modelled as an `Option CookieCacheM` (`none` = absent or unreadable) and
the availability of a cache directory as a flag. -/
structure YfState where
  crumb : String
  cookie : String
  cookieStrategy : String
  cacheDirOk : Bool
  disk : Option CookieCacheM
  deriving DecidableEq, Repr

/-- Number of seconds in the fixed 24-hour cache validity window. -/
def cacheWindow : Nat := 86400

/-- Translated from saveCookieCache: write the in-memory credentials with a
24-hour expiry; with no cache directory the write is skipped. -/
def saveCookieCache (now : Nat) (st : YfState) : YfState :=
  if st.cacheDirOk = false then st
  else
    { st with disk := some ⟨st.cookie, st.crumb, now + cacheWindow, st.cookieStrategy⟩ }

/-- Translated from loadCookieCache: a missing file, an expired record or an
invalid crumb is a cache miss (`false`, state unchanged); otherwise the three
credential fields are restored. -/
def loadCookieCache (now : Nat) (st : YfState) : Bool × YfState :=
  if st.cacheDirOk = false then (false, st)
  else
    match st.disk with
    | none => (false, st)
    | some c =>
      if now > c.expiry then (false, st)
      else if isValidCrumb c.crumb = false then (false, st)
      else (true, { st with cookie := c.cookie, crumb := c.crumb, cookieStrategy := c.strategy })

/-! ## Credential acquisition (getCookieAndCrumb, source lines 495-535)

The two acquisition strategies perform network requests, so each is
abstracted as an oracle value of type `Except Unit (String × String)`:
on success it yields the cookie the strategy stored together with the
crumb it returned; on failure nothing is produced (a failed attempt in
this model leaves the session's cookie untouched). -/

/-- Effect of running one acquisition strategy on the session: a successful
strategy stores its cookie and hands back the crumb. -/
def runStrategy (res : Except Unit (String × String)) (st : YfState) :
    Except Unit String × YfState :=
  match res with
  | .ok p => (.ok p.2, { st with cookie := p.1 })
  | .error e => (.error e, st)

/-- Result of `getCookieAndCrumb`: the crumb or an error message, the
updated session state, and the list of strategies attempted, in order. -/
structure AcqOutcome where
  res : Except String String
  st : YfState
  trace : List String
  deriving Repr

def acquisitionFailedMsg : String := "acquisition failed"

def invalidCrumbMsg : String := "invalid crumb received: "

/-- Translated from getCookieAndCrumb: return a cached crumb if present;
otherwise try the remembered strategy and, if it errs, flip the remembered
strategy and try the other one once; a crumb failing `isValidCrumb` is an
error and is not stored; a valid crumb is stored and persisted. -/
def getCookieAndCrumb (now : Nat) (basicRes csrfRes : Except Unit (String × String))
    (st : YfState) : AcqOutcome :=
  if st.crumb ≠ "" then ⟨.ok st.crumb, st, []⟩
  else
    let attempt :=
      if st.cookieStrategy = strategyCsrf then
        match runStrategy csrfRes st with
        | (.ok c, st1) => (Except.ok c, st1, [strategyCsrf])
        | (.error _, _) =>
          match runStrategy basicRes { st with cookieStrategy := strategyBasic } with
          | (r, st1) => (r, st1, [strategyCsrf, strategyBasic])
      else
        match runStrategy basicRes st with
        | (.ok c, st1) => (Except.ok c, st1, [strategyBasic])
        | (.error _, _) =>
          match runStrategy csrfRes { st with cookieStrategy := strategyCsrf } with
          | (r, st1) => (r, st1, [strategyBasic, strategyCsrf])
    match attempt with
    | (.error _, st1, tr) => ⟨.error acquisitionFailedMsg, st1, tr⟩
    | (.ok c, st1, tr) =>
      if isValidCrumb c = false then ⟨.error (invalidCrumbMsg ++ c), st1, tr⟩
      else ⟨.ok c, saveCookieCache now { st1 with crumb := c }, tr⟩

/-! ## Request/retry engine (makeRequest, source lines 332-396)

`doRequest` performs network I/O, so the engine is parametrised by an
oracle mapping the index of each dispatched request to its outcome.
The engine state also carries instrumentation read off by the theorems:
the number of dispatches, the number of strategy switches, and the list
of backoff sleeps as (attempt, seconds) pairs. -/

/-- Outcome of one dispatched request: a transport error (with its
IsTransientError classification) or a response with a status code and the
final URL host. -/
inductive DoOutcome where
  | err (transient : Bool)
  | resp (status : Nat) (host : String)
  deriving DecidableEq, Repr

/-- Terminal error kinds of the retry engine. -/
inductive MErr where
  | netErr (transient : Bool)
  | rateLimited
  | authFailed (status : Nat)
  deriving DecidableEq, Repr

/-- Session state threaded through the retry loop plus instrumentation. -/
structure MState where
  strategy : String
  crumb : String
  cookie : String
  calls : Nat
  switches : Nat
  sleeps : List (Nat × Nat)
  lastErr : Option MErr
  deriving DecidableEq, Repr

/-- Final value of a makeRequest call: a successful response or the error
returned (Go returns the possibly-nil lastErr when the loop exhausts). -/
inductive MOut where
  | success (status : Nat) (host : String)
  | failure (e : Option MErr)
  deriving DecidableEq, Repr

structure MResult where
  res : MOut
  st : MState
  deriving DecidableEq, Repr

/-- Backoff seconds for a retry attempt, translated from the source:
2^attempt seconds, capped at 30 seconds. -/
def backoffSeconds (attempt : Nat) : Nat :=
  let b := 2 ^ attempt
  if b > 30 then 30 else b

/-- Translated from switchCookieStrategy: toggle basic/csrf and clear the
credentials (instrumented with a switch counter). -/
def switchCookieStrategy (st : MState) : MState :=
  { st with
    strategy := if st.strategy = strategyBasic then strategyCsrf else strategyBasic
    crumb := ""
    cookie := ""
    switches := st.switches + 1 }

/-- Translated from acceptConsent: clear the credentials and force the
csrf strategy. -/
def acceptConsent (st : MState) : MState :=
  { st with crumb := "", cookie := "", strategy := strategyCsrf }

/-- Translated from ResetCrumb: clear crumb and cookie. -/
def resetCrumb (st : MState) : MState :=
  { st with crumb := "", cookie := "" }

/-- Record a backoff sleep taken before retrying attempt number `attempt`. -/
def recordSleep (attempt : Nat) (st : MState) : MState :=
  { st with sleeps := st.sleeps ++ [(attempt, backoffSeconds attempt)] }

def consentSuffix : String := "consent.yahoo.com"

/-- Translated from isConsentURL, applied to the already-extracted hostname
of the response URL. -/
def isConsentHost (host : String) : Bool :=
  hasSuffixGo host consentSuffix

/-- The retry loop of makeRequest. `gas` is the number of loop iterations
the Go `for attempt := 0; attempt <= retries; attempt++` head still allows;
every branch of the body either returns or re-enters the loop head, which
increments `attempt` (Go `continue` runs the post statement), so `gas`
falls by one per iteration. -/
def mrLoop (oracle : Nat → DoOutcome) (retries : Int) :
    Nat → Nat → MState → MResult
  | 0, _, st => ⟨.failure st.lastErr, st⟩
  | gas + 1, attempt, st =>
    match oracle st.calls with
    | .err transient =>
      let st1 := { st with calls := st.calls + 1, lastErr := some (.netErr transient) }
      if transient = true ∧ (attempt : Int) < retries then
        mrLoop oracle retries gas (attempt + 1) (recordSleep attempt st1)
      else ⟨.failure (some (.netErr transient)), st1⟩
    | .resp status host =>
      let st1 := { st with calls := st.calls + 1 }
      if status = 429 then
        let st2 := switchCookieStrategy { st1 with lastErr := some .rateLimited }
        if (attempt : Int) < retries then
          mrLoop oracle retries gas (attempt + 1) (recordSleep attempt st2)
        else ⟨.failure (some .rateLimited), st2⟩
      else if isConsentHost host = true then
        mrLoop oracle retries gas (attempt + 1) (acceptConsent st1)
      else if status = 401 ∨ status = 403 then
        let st2 := resetCrumb st1
        if (attempt : Int) < retries then
          mrLoop oracle retries gas (attempt + 1) st2
        else ⟨.failure (some (.authFailed status)), st2⟩
      else ⟨.success status host, st1⟩

/-- Translated from makeRequest: a configured retry count of 0 defaults
to 3 retries. -/
def mrEffectiveRetries (r : Int) : Int :=
  if r = 0 then 3 else r

def initMState (strategy crumb cookie : String) : MState :=
  ⟨strategy, crumb, cookie, 0, 0, [], none⟩

/-- Translated from makeRequest: run the retry loop with the effective
retry budget, starting from attempt 0. -/
def makeRequest (oracle : Nat → DoOutcome) (retriesCfg : Int)
    (strategy crumb cookie : String) : MResult :=
  let retries := mrEffectiveRetries retriesCfg
  mrLoop oracle retries (retries + 1).toNat 0 (initMState strategy crumb cookie)

/-! ## Download orchestrator (Download, download.go lines 57-161)

Each worker's per-symbol `History` fetch is abstracted as an oracle
`String → Except String String` mapping a symbol to its payload or error.
The workers drain a queue of the normalized symbols; the partition of the
result by symbol does not depend on the interleaving, so the queue is
modelled as processed in order. -/

/-- One step of the ticker-normalization loop: upper-case and trim a split
part, then append it unless empty or already seen. -/
def addTicker (acc : List String) (p : String) : List String :=
  let q := toUpperGo (trimSpace p)
  if q ≠ "" ∧ q ∉ acc then acc ++ [q] else acc

/-- Translated from the normalization loop of Download: split each input on
commas, upper-case and trim each part, and de-duplicate preserving order. -/
def normalizeTickers (ts : List String) : List String :=
  ts.foldl (fun acc t => (splitComma t).foldl addTicker acc) []

/-- Translated from the worker-count computation of Download: a
non-positive configured count becomes 1, then the count is capped by the
number of jobs. -/
def downloadWorkers (threads : Int) (jobCount : Nat) : Int :=
  let w : Int := if threads ≤ 0 then 1 else threads
  if w > (jobCount : Int) then (jobCount : Int) else w

/-- Download result: Data and Errors maps as association lists, the Failed
and Succeeded symbol slices, plus the worker count used and the list of
symbols actually handed to a worker. -/
structure DownloadResultM where
  data : List (String × String)
  errors : List (String × String)
  failed : List String
  succeeded : List String
  workers : Int
  dispatched : List String
  deriving DecidableEq, Repr

def emptyDownloadResult : DownloadResultM := ⟨[], [], [], [], 0, []⟩

/-- Worker body for one symbol: fetch its history and record the outcome
against that symbol only. -/
def downloadStep (fetch : String → Except String String)
    (r : DownloadResultM) (sym : String) : DownloadResultM :=
  match fetch sym with
  | .ok h =>
    { r with
      data := r.data ++ [(sym, h)]
      succeeded := r.succeeded ++ [sym]
      dispatched := r.dispatched ++ [sym] }
  | .error e =>
    { r with
      errors := r.errors ++ [(sym, e)]
      failed := r.failed ++ [sym]
      dispatched := r.dispatched ++ [sym] }

/-- The fields of DownloadOptions the orchestrator itself reads. -/
structure DownloadOptionsM where
  tickers : List String
  threads : Int
  deriving DecidableEq, Repr

/-- DefaultDownloadOptions: no tickers, 4 threads. -/
def defaultDownloadOptions : DownloadOptionsM := ⟨[], 4⟩

/-- Translated from Download: nil options become the defaults, an empty
ticker list short-circuits to an empty result, and otherwise the
normalized symbols are fanned out to the workers. The second component is
the returned Go error, which is nil on every path. -/
def download (fetch : String → Except String String)
    (opts : Option DownloadOptionsM) : DownloadResultM × Option String :=
  let o := opts.getD defaultDownloadOptions
  if o.tickers = [] then (emptyDownloadResult, none)
  else
    let jobs := normalizeTickers o.tickers
    let w := downloadWorkers o.threads jobs.length
    (jobs.foldl (downloadStep fetch) { emptyDownloadResult with workers := w }, none)

/-! ## Single-dispatch URL construction (doRequest, source lines 413-459)

The net/url helpers (query encoding and escaping) are Go standard library
collaborators and are passed in as functions; the crumb acquisition result
is passed in as the `Except` value `getCookieAndCrumb` produced. -/

structure DoReqModel where
  url : String
  crumbUsed : String
  crumbAttached : Bool
  errBeforeSend : Option String
  sent : Bool
  deriving Repr

def crumbKey : String := "crumb="

def questionMark : String := "?"

def ampersand : String := "&"

/-- Translated from doRequest: a failed crumb acquisition is swallowed (the
request proceeds with an empty crumb), and a non-empty crumb is appended as
a query parameter with the separator chosen by whether the URL already has
a query. -/
def doRequest (encode : List (String × String) → String) (escape : String → String)
    (endpoint : String) (params : List (String × String))
    (crumbRes : Except String String) : DoReqModel :=
  let reqURL := if params ≠ [] then endpoint ++ questionMark ++ encode params else endpoint
  let crumb := match crumbRes with | .ok c => c | .error _ => ""
  if crumb ≠ "" then
    let u :=
      if containsSubstr reqURL questionMark = true then
        reqURL ++ ampersand ++ crumbKey ++ escape crumb
      else reqURL ++ questionMark ++ crumbKey ++ escape crumb
    ⟨u, crumb, true, none, true⟩
  else ⟨reqURL, crumb, false, none, true⟩

/-! ## Helper lemmas about the retry-engine state transformers -/

@[simp]
lemma switchCookieStrategy_calls (st : MState) :
    (switchCookieStrategy st).calls = st.calls := rfl

@[simp]
lemma switchCookieStrategy_switches (st : MState) :
    (switchCookieStrategy st).switches = st.switches + 1 := rfl

@[simp]
lemma switchCookieStrategy_sleeps (st : MState) :
    (switchCookieStrategy st).sleeps = st.sleeps := rfl

@[simp]
lemma recordSleep_calls (a : Nat) (st : MState) :
    (recordSleep a st).calls = st.calls := rfl

@[simp]
lemma recordSleep_switches (a : Nat) (st : MState) :
    (recordSleep a st).switches = st.switches := rfl

@[simp]
lemma recordSleep_sleeps (a : Nat) (st : MState) :
    (recordSleep a st).sleeps = st.sleeps ++ [(a, backoffSeconds a)] := rfl

@[simp]
lemma acceptConsent_calls (st : MState) : (acceptConsent st).calls = st.calls := rfl

@[simp]
lemma acceptConsent_switches (st : MState) :
    (acceptConsent st).switches = st.switches := rfl

@[simp]
lemma acceptConsent_sleeps (st : MState) : (acceptConsent st).sleeps = st.sleeps := rfl

@[simp]
lemma resetCrumb_calls (st : MState) : (resetCrumb st).calls = st.calls := rfl

@[simp]
lemma resetCrumb_switches (st : MState) : (resetCrumb st).switches = st.switches := rfl

@[simp]
lemma resetCrumb_sleeps (st : MState) : (resetCrumb st).sleeps = st.sleeps := rfl

/-- The backoff the source computes (power of two capped at 30) is the
minimum of the two quantities. -/
lemma backoffSeconds_min (k : Nat) : backoffSeconds k = min (2 ^ k) 30 := by
  unfold backoffSeconds
  simp only []
  split <;> omega

/-- One loop iteration on a 429 response with budget left: switch strategy,
sleep, re-enter with the next attempt number. -/
lemma mrLoop_429 (oracle : Nat → DoOutcome) (retries : Int) (gas attempt : Nat)
    (st : MState) (host : String)
    (ho : oracle st.calls = DoOutcome.resp 429 host)
    (hlt : (attempt : Int) < retries) :
    mrLoop oracle retries (gas + 1) attempt st =
      mrLoop oracle retries gas (attempt + 1)
        (recordSleep attempt (switchCookieStrategy
          { st with calls := st.calls + 1, lastErr := some MErr.rateLimited })) := by
  simp [mrLoop, ho, hlt]

/-- One loop iteration on a response that triggers none of the recovery
branches: the response is returned. -/
lemma mrLoop_return (oracle : Nat → DoOutcome) (retries : Int) (gas attempt : Nat)
    (st : MState) (status : Nat) (host : String)
    (ho : oracle st.calls = DoOutcome.resp status host)
    (h429 : status ≠ 429) (hcon : isConsentHost host = false)
    (h401 : status ≠ 401) (h403 : status ≠ 403) :
    mrLoop oracle retries (gas + 1) attempt st =
      ⟨MOut.success status host, { st with calls := st.calls + 1 }⟩ := by
  simp [mrLoop, ho, h429, hcon, h401, h403]

/-! ## Concrete transports used by counterexamples and witnesses -/

def plainHost : String := "finance.yahoo.com"

def consentHostW : String := "guce.consent.yahoo.com"

/-- Transport returning HTTP 429 on the first two dispatches and
HTTP 200 on the third. -/
def rateLimitTransport : Nat → DoOutcome :=
  fun n => if n < 2 then .resp 429 plainHost else .resp 200 plainHost

/-- Transport redirecting to a consent host on the first four dispatches
and succeeding on the fifth. -/
def consentThen200 : Nat → DoOutcome :=
  fun n => if n < 4 then .resp 200 consentHostW else .resp 200 plainHost

/-- Transport always failing with a transient transport error. -/
def transientTransport : Nat → DoOutcome := fun _ => .err true

/-- C3 counterexample: with the 429/429/200 transport and retry budget
exactly 2 the request succeeds but the cookie strategy is toggled twice
(once per 429 response), not exactly once as the claim states. -/
theorem C3_switch_count_counterexample :
    (makeRequest rateLimitTransport 2 strategyBasic "" "").res = MOut.success 200 plainHost
    ∧ (makeRequest rateLimitTransport 2 strategyBasic "" "").st.switches = 2
    ∧ (makeRequest rateLimitTransport 2 strategyBasic "" "").st.switches ≠ 1 := by
  refine ⟨rfl, rfl, by decide⟩

/-- C3 (amended): with a transport answering 429 on the first two dispatches
and 200 on the third, any retry budget of at least 2 yields the successful
response, and the cookie strategy is toggled exactly twice — once for each
rate-limited attempt. -/
theorem C3_rate_limit_retry (r : Int) (hr : 2 ≤ r) (strategy crumb cookie : String) :
    (makeRequest rateLimitTransport r strategy crumb cookie).res = MOut.success 200 plainHost
    ∧ (makeRequest rateLimitTransport r strategy crumb cookie).st.switches = 2 := by
  have hr0 : mrEffectiveRetries r = r := by
    unfold mrEffectiveRetries
    split <;> omega
  obtain ⟨g, hg⟩ : ∃ g, (r + 1).toNat = g + 3 := ⟨(r + 1).toNat - 3, by omega⟩
  set st0 := initMState strategy crumb cookie with hst0
  have hmk : makeRequest rateLimitTransport r strategy crumb cookie
      = mrLoop rateLimitTransport r (g + 3) 0 st0 := by
    unfold makeRequest
    simp only [hr0]
    rw [hg]
  have e1 := mrLoop_429 rateLimitTransport r (g + 2) 0 st0 plainHost (by rfl) (by omega)
  set st1 := recordSleep 0 (switchCookieStrategy
    { st0 with calls := st0.calls + 1, lastErr := some MErr.rateLimited }) with hst1
  have e2 := mrLoop_429 rateLimitTransport r (g + 1) 1 st1 plainHost (by rfl) (by omega)
  set st2 := recordSleep 1 (switchCookieStrategy
    { st1 with calls := st1.calls + 1, lastErr := some MErr.rateLimited }) with hst2
  have e3 := mrLoop_return rateLimitTransport r g 2 st2 200 plainHost
    (by rfl) (by decide) (by decide) (by decide) (by decide)
  rw [hmk, e1, e2, e3]
  exact ⟨rfl, rfl⟩

/-- C3 witness: the amended theorem instantiated at retry budget 2. -/
theorem C3_rate_limit_retry_witness :
    (makeRequest rateLimitTransport 2 strategyBasic "" "").res = MOut.success 200 plainHost
    ∧ (makeRequest rateLimitTransport 2 strategyBasic "" "").st.switches = 2 :=
  C3_rate_limit_retry 2 (by norm_num) strategyBasic "" ""

/-- C4 counterexample: with retry budget 3 (four loop iterations) and a
transport that redirects to a consent host on the first four dispatches and
would succeed on the fifth, the call performs exactly four dispatches and
returns a failure: each consent iteration consumed one unit of the attempt
budget (Go's `continue` runs the loop post statement), so the fifth,
successful dispatch is never reached — refuting the claim that a consent
iteration is not counted against the attempt budget. -/
theorem C4_consent_budget_counterexample :
    (makeRequest consentThen200 3 strategyBasic "" "").st.calls = 4
    ∧ (makeRequest consentThen200 3 strategyBasic "" "").res = MOut.failure none :=
  ⟨rfl, rfl⟩

/-- C4 (amended): a response whose final URL host is a consent host clears
the stored crumb and cookie, forces the csrf strategy, and re-enters the
loop immediately with no backoff sleep recorded — but the iteration does
count against the attempt budget: the loop re-enters with the attempt
counter advanced and one less permitted iteration. -/
theorem C4_consent_step (oracle : Nat → DoOutcome) (retries : Int) (gas attempt : Nat)
    (st : MState) (status : Nat) (host : String)
    (ho : oracle st.calls = DoOutcome.resp status host)
    (h429 : status ≠ 429) (hcon : isConsentHost host = true) :
    mrLoop oracle retries (gas + 1) attempt st =
      mrLoop oracle retries gas (attempt + 1) (acceptConsent { st with calls := st.calls + 1 })
    ∧ (acceptConsent { st with calls := st.calls + 1 }).crumb = ""
    ∧ (acceptConsent { st with calls := st.calls + 1 }).cookie = ""
    ∧ (acceptConsent { st with calls := st.calls + 1 }).strategy = strategyCsrf
    ∧ (acceptConsent { st with calls := st.calls + 1 }).sleeps = st.sleeps := by
  refine ⟨?_, rfl, rfl, rfl, rfl⟩
  simp [mrLoop, ho, h429, hcon]

/-- C4 witness: the amended consent-step theorem instantiated at the
consent transport's first dispatch. -/
theorem C4_consent_step_witness :
    mrLoop consentThen200 3 (0 + 1) 0 (initMState strategyBasic "" "") =
      mrLoop consentThen200 3 0 (0 + 1)
        (acceptConsent { initMState strategyBasic "" "" with
          calls := (initMState strategyBasic "" "").calls + 1 })
    ∧ (acceptConsent { initMState strategyBasic "" "" with
        calls := (initMState strategyBasic "" "").calls + 1 }).crumb = ""
    ∧ (acceptConsent { initMState strategyBasic "" "" with
        calls := (initMState strategyBasic "" "").calls + 1 }).cookie = ""
    ∧ (acceptConsent { initMState strategyBasic "" "" with
        calls := (initMState strategyBasic "" "").calls + 1 }).strategy = strategyCsrf
    ∧ (acceptConsent { initMState strategyBasic "" "" with
        calls := (initMState strategyBasic "" "").calls + 1 }).sleeps =
        (initMState strategyBasic "" "").sleeps :=
  C4_consent_step consentThen200 3 0 0 (initMState strategyBasic "" "") 200 consentHostW
    (by rfl) (by decide) (by decide)

/-! ## Sleeps and dispatch-count invariants of the retry loop -/

/-- Appending the backoff sleep of one attempt preserves the invariant that
every recorded sleep is min(2^attempt, 30) seconds. -/
lemma recordSleep_inv (a : Nat) (st : MState)
    (h : ∀ p ∈ st.sleeps, p.2 = min (2 ^ p.1) 30) :
    ∀ p ∈ (recordSleep a st).sleeps, p.2 = min (2 ^ p.1) 30 := by
  intro p hp
  simp only [recordSleep_sleeps, List.mem_append, List.mem_singleton] at hp
  rcases hp with hp | hp
  · exact h p hp
  · subst hp
    simpa using backoffSeconds_min a

/-- Every sleep the retry loop ever records is min(2^attempt, 30) seconds. -/
lemma mrLoop_sleeps (oracle : Nat → DoOutcome) (retries : Int) :
    ∀ gas attempt st, (∀ p ∈ st.sleeps, p.2 = min (2 ^ p.1) 30) →
      ∀ p ∈ (mrLoop oracle retries gas attempt st).st.sleeps, p.2 = min (2 ^ p.1) 30 := by
  intro gas
  induction gas with
  | zero =>
    intro attempt st h
    simpa [mrLoop] using h
  | succ g ih =>
    intro attempt st h
    simp only [mrLoop]
    cases ho : oracle st.calls with
    | err transient =>
      simp only []
      split
      · exact ih _ _ (recordSleep_inv _ _ h)
      · simpa using h
    | resp status host =>
      simp only []
      split
      · split
        · exact ih _ _ (recordSleep_inv _ _ h)
        · simpa using h
      · split
        · exact ih _ _ h
        · split
          · split
            · exact ih _ _ h
            · simpa using h
          · simpa using h

/-- The retry loop dispatches at most `gas` further requests. -/
lemma mrLoop_calls (oracle : Nat → DoOutcome) (retries : Int) :
    ∀ gas attempt st, (mrLoop oracle retries gas attempt st).st.calls ≤ st.calls + gas := by
  intro gas
  induction gas with
  | zero =>
    intro attempt st
    simp [mrLoop]
  | succ g ih =>
    intro attempt st
    simp only [mrLoop]
    cases ho : oracle st.calls with
    | err transient =>
      simp only []
      split
      · have h1 := ih (attempt + 1) (recordSleep attempt
          { st with calls := st.calls + 1, lastErr := some (MErr.netErr transient) })
        simp only [recordSleep_calls] at h1
        omega
      · simp
    | resp status host =>
      simp only []
      split
      · split
        · have h1 := ih (attempt + 1) (recordSleep attempt (switchCookieStrategy
            { st with calls := st.calls + 1, lastErr := some MErr.rateLimited }))
          simp only [recordSleep_calls, switchCookieStrategy_calls] at h1
          omega
        · simp
      · split
        · have h1 := ih (attempt + 1) (acceptConsent { st with calls := st.calls + 1 })
          simp only [acceptConsent_calls] at h1
          omega
        · split
          · split
            · have h1 := ih (attempt + 1) (resetCrumb { st with calls := st.calls + 1 })
              simp only [resetCrumb_calls] at h1
              omega
            · simp
          · simp

/-- C5: every backoff sleep taken for retry attempt k lasts min(2^k, 30)
seconds, the configured retry count 0 defaults to an effective budget of 3
retries, and with that default at most 4 requests are dispatched per call. -/
theorem C5_backoff_and_budget (oracle : Nat → DoOutcome) (retriesCfg : Int)
    (strategy crumb cookie : String) :
    (∀ p ∈ (makeRequest oracle retriesCfg strategy crumb cookie).st.sleeps,
        p.2 = min (2 ^ p.1) 30)
    ∧ mrEffectiveRetries 0 = 3
    ∧ (makeRequest oracle 0 strategy crumb cookie).st.calls ≤ 4 := by
  refine ⟨?_, rfl, ?_⟩
  · intro p hp
    exact mrLoop_sleeps oracle (mrEffectiveRetries retriesCfg)
      ((mrEffectiveRetries retriesCfg + 1).toNat) 0 (initMState strategy crumb cookie)
      (by intro q hq; simp [initMState] at hq) p hp
  · have h1 := mrLoop_calls oracle (mrEffectiveRetries 0)
      ((mrEffectiveRetries 0 + 1).toNat) 0 (initMState strategy crumb cookie)
    have h2 : (initMState strategy crumb cookie).calls = 0 := rfl
    have h3 : ((mrEffectiveRetries 0 + 1).toNat) = 4 := rfl
    rw [h2, h3] at h1
    exact h1

/-- C5 witness: with an always-transiently-failing transport and retry
budget 1, the single recorded sleep is the pair (0, 1) and its duration is
min(2^0, 30). -/
theorem C5_backoff_and_budget_witness :
    ((0, 1) : Nat × Nat) ∈ (makeRequest transientTransport 1 strategyBasic "" "").st.sleeps
    ∧ ((0, 1) : Nat × Nat).2 = min (2 ^ ((0, 1) : Nat × Nat).1) 30 := by
  have hm : ((0, 1) : Nat × Nat) ∈
      (makeRequest transientTransport 1 strategyBasic "" "").st.sleeps := by decide
  exact ⟨hm, (C5_backoff_and_budget transientTransport 1 strategyBasic "" "").1 (0, 1) hm⟩

/-! ## Orchestrator lemmas -/

/-- Success classification of a per-symbol fetch. -/
def fetchOk (fetch : String → Except String String) (s : String) : Bool :=
  match fetch s with
  | .ok _ => true
  | .error _ => false

lemma downloadStep_workers (fetch : String → Except String String)
    (r : DownloadResultM) (s : String) :
    (downloadStep fetch r s).workers = r.workers := by
  unfold downloadStep
  cases fetch s <;> rfl

lemma foldl_downloadStep_workers (fetch : String → Except String String)
    (L : List String) :
    ∀ r0, (L.foldl (downloadStep fetch) r0).workers = r0.workers := by
  induction L with
  | nil => intro r0; rfl
  | cons a L ih =>
    intro r0
    rw [List.foldl_cons, ih, downloadStep_workers]

lemma downloadStep_succeeded (fetch : String → Except String String)
    (r : DownloadResultM) (s : String) :
    (downloadStep fetch r s).succeeded =
      r.succeeded ++ (if fetchOk fetch s = true then [s] else []) := by
  unfold downloadStep fetchOk
  cases fetch s <;> simp

lemma downloadStep_failed (fetch : String → Except String String)
    (r : DownloadResultM) (s : String) :
    (downloadStep fetch r s).failed =
      r.failed ++ (if fetchOk fetch s = true then [] else [s]) := by
  unfold downloadStep fetchOk
  cases fetch s <;> simp

lemma foldl_downloadStep_succeeded (fetch : String → Except String String)
    (L : List String) :
    ∀ r0, (L.foldl (downloadStep fetch) r0).succeeded =
      r0.succeeded ++ L.filter (fetchOk fetch) := by
  induction L with
  | nil => intro r0; simp
  | cons a L ih =>
    intro r0
    rw [List.foldl_cons, ih, downloadStep_succeeded, List.filter_cons]
    by_cases h : fetchOk fetch a = true <;> simp [h]

lemma foldl_downloadStep_failed (fetch : String → Except String String)
    (L : List String) :
    ∀ r0, (L.foldl (downloadStep fetch) r0).failed =
      r0.failed ++ L.filter (fun s => !fetchOk fetch s) := by
  induction L with
  | nil => intro r0; simp
  | cons a L ih =>
    intro r0
    rw [List.foldl_cons, ih, downloadStep_failed, List.filter_cons]
    by_cases h : fetchOk fetch a = true <;> simp [h]

lemma addTicker_nodup (acc : List String) (p : String) (h : acc.Nodup) :
    (addTicker acc p).Nodup := by
  unfold addTicker
  simp only []
  split
  · next hq =>
    refine List.Nodup.append h (List.nodup_singleton _) ?_
    intro a ha hb
    simp only [List.mem_singleton] at hb
    subst hb
    exact hq.2 ha
  · exact h

lemma foldl_addTicker_nodup (ps : List String) :
    ∀ acc, acc.Nodup → (ps.foldl addTicker acc).Nodup := by
  induction ps with
  | nil => intro acc h; simpa using h
  | cons p ps ih =>
    intro acc h
    rw [List.foldl_cons]
    exact ih _ (addTicker_nodup acc p h)

/-- The normalized ticker list never contains a symbol twice. -/
lemma normalizeTickers_nodup (ts : List String) : (normalizeTickers ts).Nodup := by
  unfold normalizeTickers
  have main : ∀ (us : List String) (acc : List String), acc.Nodup →
      (us.foldl (fun acc t => (splitComma t).foldl addTicker acc) acc).Nodup := by
    intro us
    induction us with
    | nil => intro acc h; simpa using h
    | cons t us ih =>
      intro acc h
      rw [List.foldl_cons]
      exact ih _ (foldl_addTicker_nodup _ _ h)
  exact main ts [] (List.nodup_nil)

/-- C1: the Succeeded and Failed collections of a Download call partition
the normalized (upper-cased, trimmed, comma-split, de-duplicated) form of
the submitted tickers: their union is exactly that set, they are disjoint,
and neither contains a symbol twice. -/
theorem C1_download_partition (fetch : String → Except String String)
    (ts : List String) (threads : Int) :
    (∀ s, (s ∈ (download fetch (some ⟨ts, threads⟩)).1.succeeded
        ∨ s ∈ (download fetch (some ⟨ts, threads⟩)).1.failed)
      ↔ s ∈ normalizeTickers ts)
    ∧ (∀ s, ¬(s ∈ (download fetch (some ⟨ts, threads⟩)).1.succeeded
        ∧ s ∈ (download fetch (some ⟨ts, threads⟩)).1.failed))
    ∧ (download fetch (some ⟨ts, threads⟩)).1.succeeded.Nodup
    ∧ (download fetch (some ⟨ts, threads⟩)).1.failed.Nodup := by
  by_cases hts : ts = []
  · subst hts
    refine ⟨?_, ?_, ?_, ?_⟩ <;>
      simp [download, normalizeTickers, emptyDownloadResult, defaultDownloadOptions]
  · have hsucc : (download fetch (some ⟨ts, threads⟩)).1.succeeded =
        (normalizeTickers ts).filter (fetchOk fetch) := by
      simp only [download, Option.getD_some, hts, if_neg, ne_eq, not_false_iff]
      rw [foldl_downloadStep_succeeded]
      rfl
    have hfail : (download fetch (some ⟨ts, threads⟩)).1.failed =
        (normalizeTickers ts).filter (fun s => !fetchOk fetch s) := by
      simp only [download, Option.getD_some, hts, if_neg, ne_eq, not_false_iff]
      rw [foldl_downloadStep_failed]
      rfl
    refine ⟨?_, ?_, ?_, ?_⟩
    · intro s
      rw [hsucc, hfail]
      simp only [List.mem_filter]
      constructor
      · rintro (⟨h, _⟩ | ⟨h, _⟩) <;> exact h
      · intro h
        by_cases hp : fetchOk fetch s = true
        · exact Or.inl ⟨h, hp⟩
        · exact Or.inr ⟨h, by simp [hp]⟩
    · intro s
      rw [hsucc, hfail]
      simp only [List.mem_filter]
      rintro ⟨⟨_, h1⟩, ⟨_, h2⟩⟩
      simp [h1] at h2
    · rw [hsucc]
      exact (normalizeTickers_nodup ts).filter _
    · rw [hfail]
      exact (normalizeTickers_nodup ts).filter _

/-- C1 witness: the partition theorem instantiated at a concrete mixed-case,
duplicated, comma-grouped input and a fetch oracle that fails on one symbol. -/
def fetchW : String → Except String String :=
  fun s => if s = "BAD" then Except.error "boom" else Except.ok "hist"

def tickersW : List String := [" aapl ,msft", "AAPL", "bad", ""]

theorem C1_download_partition_witness :
    (("AAPL" ∈ (download fetchW (some ⟨tickersW, 2⟩)).1.succeeded
      ∨ "AAPL" ∈ (download fetchW (some ⟨tickersW, 2⟩)).1.failed)
      ↔ "AAPL" ∈ normalizeTickers tickersW)
    ∧ ¬("BAD" ∈ (download fetchW (some ⟨tickersW, 2⟩)).1.succeeded
      ∧ "BAD" ∈ (download fetchW (some ⟨tickersW, 2⟩)).1.failed) :=
  ⟨(C1_download_partition fetchW tickersW 2).1 "AAPL",
   (C1_download_partition fetchW tickersW 2).2.1 "BAD"⟩

/-- C6 counterexample: with 2 configured threads and 2 distinct symbols the
orchestrator starts 2 workers, but min(configured, job count, 1) is 1 — the
claimed formula caps every pool at a single worker and does not match the
code. -/
theorem C6_workers_counterexample :
    (download fetchW (some ⟨["A", "B"], 2⟩)).1.workers = 2
    ∧ ¬((download fetchW (some ⟨["A", "B"], 2⟩)).1.workers
        = min (min (2 : Int) 2) 1) := by
  refine ⟨rfl, by decide⟩

/-- C6 (amended): the worker pool size equals min(max(configured, 1),
distinct normalized symbol count) — the configured thread count is raised
to at least 1 and then capped by the number of jobs, both for the helper
computation and for the worker count a Download call records. -/
theorem C6_workers_clamp :
    (∀ (threads : Int) (n : Nat),
        downloadWorkers threads n = min (max threads 1) (n : Int))
    ∧ ∀ (fetch : String → Except String String) (ts : List String) (threads : Int),
        (download fetch (some ⟨ts, threads⟩)).1.workers
          = min (max threads 1) (((normalizeTickers ts).length : Nat) : Int) := by
  have base : ∀ (threads : Int) (n : Nat),
      downloadWorkers threads n = min (max threads 1) (n : Int) := by
    intro t n
    unfold downloadWorkers
    simp only []
    split <;> split <;> omega
  refine ⟨base, ?_⟩
  intro fetch ts threads
  by_cases hts : ts = []
  · subst hts
    have h0 : (download fetch (some ⟨[], threads⟩)).1.workers = 0 := rfl
    have hn : (((normalizeTickers ([] : List String)).length : Nat) : Int) = 0 := rfl
    rw [h0, hn]
    omega
  · simp only [download, Option.getD_some, hts, if_neg, ne_eq, not_false_iff]
    rw [foldl_downloadStep_workers]
    exact base threads (normalizeTickers ts).length

/-- C9: for nil options or an empty ticker list, Download returns the empty
result with a nil error, with all collections empty and no symbol ever
dispatched to a worker. -/
theorem C9_empty_input (fetch : String → Except String String) :
    download fetch none = (emptyDownloadResult, none)
    ∧ (∀ threads : Int, download fetch (some ⟨[], threads⟩) = (emptyDownloadResult, none))
    ∧ (download fetch none).1.data = []
    ∧ (download fetch none).1.errors = []
    ∧ (download fetch none).1.failed = []
    ∧ (download fetch none).1.succeeded = []
    ∧ (download fetch none).1.dispatched = []
    ∧ (download fetch none).2 = none :=
  ⟨rfl, fun _ => rfl, rfl, rfl, rfl, rfl, rfl, rfl⟩

/-! ## Credential validity and acquisition claims -/

/-- The three crumb shapes the claim singles out: empty, an HTML page, or
the literal rate-limit message. -/
def badCrumb (c : String) : Prop :=
  c = "" ∨ containsSubstr c htmlMarker = true ∨ containsSubstr c tooManyMarker = true

lemma isValidCrumb_of_bad (c : String) (h : badCrumb c) : isValidCrumb c = false := by
  unfold isValidCrumb
  rcases h with h | h | h
  · simp [h]
  · by_cases hc : c = "" <;> simp [hc, h]
  · by_cases hc : c = "" <;> simp [hc, h]

@[simp]
lemma saveCookieCache_crumb (now : Nat) (st : YfState) :
    (saveCookieCache now st).crumb = st.crumb := by
  unfold saveCookieCache
  split <;> rfl

@[simp]
lemma saveCookieCache_cookie (now : Nat) (st : YfState) :
    (saveCookieCache now st).cookie = st.cookie := by
  unfold saveCookieCache
  split <;> rfl

@[simp]
lemma saveCookieCache_cookieStrategy (now : Nat) (st : YfState) :
    (saveCookieCache now st).cookieStrategy = st.cookieStrategy := by
  unfold saveCookieCache
  split <;> rfl

/-- C2: a crumb that is empty, contains an HTML marker, or contains the
rate-limit message is rejected by the validity check, and whenever both
acquisition strategies can only produce such crumbs, getCookieAndCrumb
surfaces an error, leaves the session's crumb field empty, and writes
nothing to the on-disk cache. -/
theorem C2_invalid_crumb_never_kept :
    (∀ c, badCrumb c → isValidCrumb c = false)
    ∧ ∀ (now : Nat) (basicRes csrfRes : Except Unit (String × String)) (st : YfState),
        st.crumb = "" →
        (∀ ck cr, basicRes = Except.ok (ck, cr) → badCrumb cr) →
        (∀ ck cr, csrfRes = Except.ok (ck, cr) → badCrumb cr) →
        (∃ e, (getCookieAndCrumb now basicRes csrfRes st).res = Except.error e)
        ∧ (getCookieAndCrumb now basicRes csrfRes st).st.crumb = ""
        ∧ (getCookieAndCrumb now basicRes csrfRes st).st.disk = st.disk := by
  refine ⟨isValidCrumb_of_bad, ?_⟩
  intro now b c st h hb hc
  by_cases hs : st.cookieStrategy = strategyCsrf
  · cases c with
    | ok p =>
      obtain ⟨ck, cr⟩ := p
      have hval := isValidCrumb_of_bad cr (hc ck cr rfl)
      simp [getCookieAndCrumb, h, hs, runStrategy, hval]
    | error e =>
      cases b with
      | ok p =>
        obtain ⟨ck, cr⟩ := p
        have hval := isValidCrumb_of_bad cr (hb ck cr rfl)
        simp [getCookieAndCrumb, h, hs, runStrategy, hval]
      | error e2 =>
        simp [getCookieAndCrumb, h, hs, runStrategy]
  · cases b with
    | ok p =>
      obtain ⟨ck, cr⟩ := p
      have hval := isValidCrumb_of_bad cr (hb ck cr rfl)
      simp [getCookieAndCrumb, h, hs, runStrategy, hval]
    | error e =>
      cases c with
      | ok p =>
        obtain ⟨ck, cr⟩ := p
        have hval := isValidCrumb_of_bad cr (hc ck cr rfl)
        simp [getCookieAndCrumb, h, hs, runStrategy, hval]
      | error e2 =>
        simp [getCookieAndCrumb, h, hs, runStrategy]

/-- C2 witness: the theorem applied to a session with no cached crumb and a
basic strategy that returns the literal rate-limit message. -/
def c2Session : YfState := ⟨"", "", strategyBasic, true, none⟩

theorem C2_invalid_crumb_never_kept_witness :
    isValidCrumb tooManyMarker = false
    ∧ (∃ e, (getCookieAndCrumb 0 (Except.ok ("ck", tooManyMarker)) (Except.error ())
          c2Session).res = Except.error e)
    ∧ (getCookieAndCrumb 0 (Except.ok ("ck", tooManyMarker)) (Except.error ())
        c2Session).st.crumb = ""
    ∧ (getCookieAndCrumb 0 (Except.ok ("ck", tooManyMarker)) (Except.error ())
        c2Session).st.disk = c2Session.disk := by
  have hbad : badCrumb tooManyMarker := Or.inr (Or.inr (by decide))
  have w := C2_invalid_crumb_never_kept
  have w2 := w.2 0 (Except.ok ("ck", tooManyMarker)) (Except.error ()) c2Session rfl
    (by intro ck cr hh; injection hh with hh2; cases hh2; exact hbad)
    (by intro ck cr hh; cases hh)
  exact ⟨w.1 tooManyMarker hbad, w2.1, w2.2.1, w2.2.2⟩

/-! ## Strategy selection (C7) -/

/-- The strategy the source falls back to from `s`. -/
def otherStrategy (s : String) : String :=
  if s = strategyBasic then strategyCsrf else strategyBasic

/-- The oracle belonging to strategy name `s`. -/
def strategyOracle (basicRes csrfRes : Except Unit (String × String)) (s : String) :
    Except Unit (String × String) :=
  if s = strategyCsrf then csrfRes else basicRes

def badDoc : String := "<!DOCTYPE html"

def goodCrumb : String := "abc123"

def c7Session : YfState := ⟨"", "c0", strategyBasic, true, none⟩

/-- C7 counterexample: the remembered basic strategy fails, the csrf
fallback succeeds (its oracle returns a crumb), yet getCookieAndCrumb still
surfaces an error because the returned crumb fails the validity check —
refuting "only if that fallback also fails is an error surfaced to the
caller". -/
theorem C7_fallback_counterexample :
    (getCookieAndCrumb 5 (Except.error ()) (Except.ok ("ck", badDoc)) c7Session).res
      = Except.error (invalidCrumbMsg ++ badDoc)
    ∧ (getCookieAndCrumb 5 (Except.error ()) (Except.ok ("ck", badDoc)) c7Session).trace
      = [strategyBasic, strategyCsrf] := ⟨rfl, rfl⟩

/-- C7 (amended): with no cached crumb the remembered strategy is attempted
first; if it errs the other strategy is attempted exactly once and the
remembered-strategy field is updated to that second strategy; an error is
surfaced exactly when the last strategy attempted errs or the crumb it
returned fails the validity check. -/
theorem C7_strategy_fallback (now : Nat)
    (basicRes csrfRes : Except Unit (String × String)) (st : YfState)
    (hcr : st.crumb = "")
    (hs : st.cookieStrategy = strategyBasic ∨ st.cookieStrategy = strategyCsrf) :
    (∀ ck cr, strategyOracle basicRes csrfRes st.cookieStrategy = Except.ok (ck, cr) →
        (getCookieAndCrumb now basicRes csrfRes st).trace = [st.cookieStrategy]
        ∧ (getCookieAndCrumb now basicRes csrfRes st).st.cookieStrategy
          = st.cookieStrategy
        ∧ (isValidCrumb cr = true →
            (getCookieAndCrumb now basicRes csrfRes st).res = Except.ok cr)
        ∧ (isValidCrumb cr = false →
            (getCookieAndCrumb now basicRes csrfRes st).res
              = Except.error (invalidCrumbMsg ++ cr)))
    ∧ (strategyOracle basicRes csrfRes st.cookieStrategy = Except.error () →
        (getCookieAndCrumb now basicRes csrfRes st).trace
          = [st.cookieStrategy, otherStrategy st.cookieStrategy]
        ∧ (getCookieAndCrumb now basicRes csrfRes st).st.cookieStrategy
          = otherStrategy st.cookieStrategy
        ∧ (∀ ck cr, strategyOracle basicRes csrfRes (otherStrategy st.cookieStrategy)
              = Except.ok (ck, cr) →
            (isValidCrumb cr = true →
              (getCookieAndCrumb now basicRes csrfRes st).res = Except.ok cr)
            ∧ (isValidCrumb cr = false →
              (getCookieAndCrumb now basicRes csrfRes st).res
                = Except.error (invalidCrumbMsg ++ cr)))
        ∧ (strategyOracle basicRes csrfRes (otherStrategy st.cookieStrategy)
              = Except.error () →
            (getCookieAndCrumb now basicRes csrfRes st).res
              = Except.error acquisitionFailedMsg)) := by
  rcases hs with hs | hs
  · rw [hs]
    have hne : ¬(strategyBasic = strategyCsrf) := by decide
    constructor
    · intro ck cr hok
      rw [show strategyOracle basicRes csrfRes strategyBasic = basicRes from rfl] at hok
      subst hok
      refine ⟨?_, ?_, ?_, ?_⟩
      · by_cases hv : isValidCrumb cr = false <;>
          simp [getCookieAndCrumb, hcr, hs, hne, runStrategy, hv]
      · by_cases hv : isValidCrumb cr = false <;>
          simp [getCookieAndCrumb, hcr, hs, hne, runStrategy, hv]
      · intro hv
        simp [getCookieAndCrumb, hcr, hs, hne, runStrategy, hv]
      · intro hv
        simp [getCookieAndCrumb, hcr, hs, hne, runStrategy, hv]
    · intro hfail
      rw [show strategyOracle basicRes csrfRes strategyBasic = basicRes from rfl] at hfail
      subst hfail
      rw [show otherStrategy strategyBasic = strategyCsrf from rfl]
      cases csrfRes with
      | ok p =>
        obtain ⟨ck, cr⟩ := p
        refine ⟨?_, ?_, ?_, ?_⟩
        · simp [getCookieAndCrumb, hcr, hs, hne, runStrategy]
          split <;> simp [getCookieAndCrumb, hcr, hs, hne, runStrategy]
        · by_cases hv : isValidCrumb cr = true <;>
            simp [getCookieAndCrumb, hcr, hs, hne, runStrategy, hv]
        · intro ck2 cr2 hok2
          rw [show strategyOracle (Except.error ()) (Except.ok (ck, cr)) strategyCsrf
              = Except.ok (ck, cr) from rfl] at hok2
          injection hok2 with hp
          cases hp
          constructor <;> intro hv <;>
            simp [getCookieAndCrumb, hcr, hs, hne, runStrategy, hv]
        · intro hbad
          rw [show strategyOracle (Except.error ()) (Except.ok (ck, cr)) strategyCsrf
              = Except.ok (ck, cr) from rfl] at hbad
          cases hbad
      | error e =>
        refine ⟨?_, ?_, ?_, ?_⟩
        · simp [getCookieAndCrumb, hcr, hs, hne, runStrategy]
        · simp [getCookieAndCrumb, hcr, hs, hne, runStrategy]
        · intro ck2 cr2 hok2
          rw [show strategyOracle (Except.error ()) (Except.error e) strategyCsrf
              = Except.error e from rfl] at hok2
          cases hok2
        · intro _
          simp [getCookieAndCrumb, hcr, hs, hne, runStrategy]
  · rw [hs]
    constructor
    · intro ck cr hok
      rw [show strategyOracle basicRes csrfRes strategyCsrf = csrfRes from rfl] at hok
      subst hok
      refine ⟨?_, ?_, ?_, ?_⟩
      · by_cases hv : isValidCrumb cr = false <;>
          simp [getCookieAndCrumb, hcr, hs, runStrategy, hv]
      · by_cases hv : isValidCrumb cr = false <;>
          simp [getCookieAndCrumb, hcr, hs, runStrategy, hv]
      · intro hv
        simp [getCookieAndCrumb, hcr, hs, runStrategy, hv]
      · intro hv
        simp [getCookieAndCrumb, hcr, hs, runStrategy, hv]
    · intro hfail
      rw [show strategyOracle basicRes csrfRes strategyCsrf = csrfRes from rfl] at hfail
      subst hfail
      rw [show otherStrategy strategyCsrf = strategyBasic from rfl]
      cases basicRes with
      | ok p =>
        obtain ⟨ck, cr⟩ := p
        refine ⟨?_, ?_, ?_, ?_⟩
        · simp [getCookieAndCrumb, hcr, hs, runStrategy]
          split <;> simp [getCookieAndCrumb, hcr, hs, runStrategy]
        · by_cases hv : isValidCrumb cr = true <;>
            simp [getCookieAndCrumb, hcr, hs, runStrategy, hv]
        · intro ck2 cr2 hok2
          rw [show strategyOracle (Except.ok (ck, cr)) (Except.error ()) strategyBasic
              = Except.ok (ck, cr) from rfl] at hok2
          injection hok2 with hp
          cases hp
          constructor <;> intro hv <;>
            simp [getCookieAndCrumb, hcr, hs, runStrategy, hv]
        · intro hbad
          rw [show strategyOracle (Except.ok (ck, cr)) (Except.error ()) strategyBasic
              = Except.ok (ck, cr) from rfl] at hbad
          cases hbad
      | error e =>
        refine ⟨?_, ?_, ?_, ?_⟩
        · simp [getCookieAndCrumb, hcr, hs, runStrategy]
        · simp [getCookieAndCrumb, hcr, hs, runStrategy]
        · intro ck2 cr2 hok2
          rw [show strategyOracle (Except.error e) (Except.error ()) strategyBasic
              = Except.error e from rfl] at hok2
          cases hok2
        · intro _
          simp [getCookieAndCrumb, hcr, hs, runStrategy]

/-- C7 witness: the amended theorem applied to a basic-remembering session
whose basic oracle succeeds with a valid crumb. -/
theorem C7_strategy_fallback_witness :
    (getCookieAndCrumb 0 (Except.ok ("ck", goodCrumb)) (Except.error ())
        c7Session).trace = [c7Session.cookieStrategy]
    ∧ (getCookieAndCrumb 0 (Except.ok ("ck", goodCrumb)) (Except.error ())
        c7Session).st.cookieStrategy = c7Session.cookieStrategy
    ∧ (getCookieAndCrumb 0 (Except.ok ("ck", goodCrumb)) (Except.error ())
        c7Session).res = Except.ok goodCrumb := by
  have w := (C7_strategy_fallback 0 (Except.ok ("ck", goodCrumb)) (Except.error ())
    c7Session rfl (Or.inl rfl)).1 "ck" goodCrumb rfl
  exact ⟨w.1, w.2.1, w.2.2.1 (by decide)⟩

/-! ## Credential cache round-trip (C8) -/

def c8Saver : YfState := ⟨"", "x", strategyBasic, true, none⟩

def c8Target : YfState :=
  { crumb := "zz", cookie := "y", cookieStrategy := strategyCsrf, cacheDirOk := true,
    disk := (saveCookieCache 0 c8Saver).disk }

/-- C8 counterexample: the claim quantifies over every credentials record,
but for a record whose crumb is empty (which fails the validity check), a
load performed 1 second after the save — far inside the 24-hour window —
reports a cache miss and restores nothing, instead of returning the saved
record. -/
theorem C8_roundtrip_counterexample :
    c8Target.disk = (saveCookieCache 0 c8Saver).disk
    ∧ (1 : Nat) ≤ 0 + cacheWindow
    ∧ (loadCookieCache 1 c8Target).1 = false
    ∧ (loadCookieCache 1 c8Target).2 = c8Target := by
  refine ⟨rfl, by decide, rfl, rfl⟩

/-- C8 (amended): for every credentials record whose crumb passes the
validity check, saving it and loading at or before 24 hours later restores
cookie, crumb and strategy into the loading session; loading strictly after
the window reports a cache miss and leaves the loading session unchanged. -/
theorem C8_roundtrip (st st2 : YfState) (t1 t2 : Nat)
    (h1 : st.cacheDirOk = true) (h2 : st2.cacheDirOk = true)
    (hv : isValidCrumb st.crumb = true)
    (hd : st2.disk = (saveCookieCache t1 st).disk) :
    (t2 ≤ t1 + cacheWindow →
        loadCookieCache t2 st2 =
          (true, { st2 with
                    cookie := st.cookie
                    crumb := st.crumb
                    cookieStrategy := st.cookieStrategy }))
    ∧ (t1 + cacheWindow < t2 → loadCookieCache t2 st2 = (false, st2)) := by
  have hdisk : st2.disk = some ⟨st.cookie, st.crumb, t1 + cacheWindow, st.cookieStrategy⟩ := by
    rw [hd]
    unfold saveCookieCache
    simp [h1]
  constructor
  · intro ht
    have hexp : ¬(t2 > t1 + cacheWindow) := by omega
    unfold loadCookieCache
    simp [h2, hdisk, hexp, hv]
  · intro ht
    have hexp : t2 > t1 + cacheWindow := ht
    unfold loadCookieCache
    simp [h2, hdisk, hexp]

def c8ValidSaver : YfState := ⟨"zq8", "ck", strategyCsrf, true, none⟩

def c8Loader : YfState :=
  { crumb := "", cookie := "", cookieStrategy := strategyBasic, cacheDirOk := true,
    disk := (saveCookieCache 10 c8ValidSaver).disk }

/-- C8 witness: the amended round-trip theorem applied to a record with a
valid crumb, once inside and once outside the window. -/
theorem C8_roundtrip_witness :
    loadCookieCache 20 c8Loader =
      (true, { c8Loader with
                cookie := c8ValidSaver.cookie
                crumb := c8ValidSaver.crumb
                cookieStrategy := c8ValidSaver.cookieStrategy })
    ∧ loadCookieCache 100000 c8Loader = (false, c8Loader) := by
  have w := C8_roundtrip c8ValidSaver c8Loader 10 20 rfl rfl (by decide) rfl
  have w2 := C8_roundtrip c8ValidSaver c8Loader 10 100000 rfl rfl (by decide) rfl
  exact ⟨w.1 (by decide), w2.2 (by decide)⟩

/-! ## Crumb attachment in doRequest (C10) -/

/-- C10: a failed crumb acquisition never aborts doRequest — the request is
still sent with no error surfaced and an empty crumb — and the crumb query
parameter is attached exactly when a non-empty crumb was obtained. -/
theorem C10_crumb_swallowed (encode : List (String × String) → String)
    (escape : String → String) (endpoint : String) (params : List (String × String))
    (crumbRes : Except String String) :
    (doRequest encode escape endpoint params crumbRes).errBeforeSend = none
    ∧ (doRequest encode escape endpoint params crumbRes).sent = true
    ∧ (∀ e, crumbRes = Except.error e →
        (doRequest encode escape endpoint params crumbRes).crumbUsed = ""
        ∧ (doRequest encode escape endpoint params crumbRes).crumbAttached = false)
    ∧ ((doRequest encode escape endpoint params crumbRes).crumbAttached = true
        ↔ ∃ c, crumbRes = Except.ok c ∧ c ≠ "") := by
  cases crumbRes with
  | ok c =>
    by_cases hcz : c = ""
    · subst hcz
      refine ⟨rfl, rfl, ?_, ?_⟩
      · intro e he
        cases he
      · constructor
        · intro hfalse
          cases hfalse
        · rintro ⟨c2, hc2, hne⟩
          injection hc2 with hc3
          exact absurd hc3.symm hne
    · refine ⟨?_, ?_, ?_, ?_⟩
      · simp [doRequest, hcz]
      · simp [doRequest, hcz]
      · intro e he
        cases he
      · simp only [doRequest, hcz]
        constructor
        · intro _
          exact ⟨c, rfl, hcz⟩
        · intro _
          simp [hcz]
  | error e =>
    refine ⟨rfl, rfl, ?_, ?_⟩
    · intro e2 _
      exact ⟨rfl, rfl⟩
    · constructor
      · intro hfalse
        cases hfalse
      · rintro ⟨c2, hc2, _⟩
        cases hc2

def encodeW : List (String × String) → String := fun _ => "a=b"

def escapeW : String → String := fun s => s

def endpointW : String := "https://query1.finance.yahoo.com/v8/chart"

/-- C10 witness: the theorem applied to a concrete failed acquisition. -/
theorem C10_crumb_swallowed_witness :
    (doRequest encodeW escapeW endpointW [] (Except.error "boom")).crumbUsed = ""
    ∧ (doRequest encodeW escapeW endpointW [] (Except.error "boom")).crumbAttached = false :=
  (C10_crumb_swallowed encodeW escapeW endpointW [] (Except.error "boom")).2.2.1 "boom" rfl

end YFinance
